import Mathlib

/-!
Verification of the agent-fix repository's core logic, shallowly embedded in
Lean 4.  The embedding covers:

* the sandbox executor `runPythonCode` of `src/app/api/code-fix/route.ts`,
* the repair-loop state machine `streamFixProcess` of the same file,
* the embedding client `fetchEmbedding`, the chunker `chunkText`, the
  similarity scoring `cosineSimilarity` and the `POST` handler of
  `src/app/api/tokenize/route.ts`.

External effects (the OpenAI chat API, the network fetch, the filesystem, the
child process and JavaScript's `JSON.parse`) are modelled as oracle inputs
supplied per call, so the control flow of the source is embedded as a pure
function of those oracles.  JavaScript numbers are modelled as real numbers
(exact arithmetic, the usual idealization of IEEE floats).
-/

namespace AgentFix

/-- Result record returned by both sandbox operations, mirroring the source's
`{ success: boolean; output: string }`. -/
structure ExecResult where
  success : Bool
  output : String
deriving DecidableEq, Repr

/-- JavaScript `stdout.includes(pat)`: `pat` occurs as a substring. -/
def strIncludes (hay pat : String) : Bool :=
  decide (pat.toList <:+: hay.toList)

/-- Indent every line of a test case with eight spaces, as done by the
`.map((line) => "        " + line)` in `runPythonCode` (lines 18–22). -/
def indentTestCase (tc : String) : String :=
  String.intercalate "\n" ((tc.splitOn "\n").map (fun line => "        " ++ line))

/-- The assembled Python file content (lines 24–36 of the source): the code,
then a `__main__` guard running the indented test cases inside a
`try`/`except` that prints the `TEST_FAILED`/`TEST_PASSED` markers. -/
def assembledFile (code : String) (testCases : List String) : String :=
  let indented := String.intercalate "\n" (testCases.map indentTestCase)
  "\n" ++ code ++ "\n\nif __name__ == \"__main__\":\n    import sys\n    try:\n"
    ++ indented
    ++ "\n    except Exception as e:\n        print(\"TEST_FAILED\", e)\n        sys.exit(1)\n    else:\n        print(\"TEST_PASSED\")\n  "

/-- Outcome of the `execAsync` call inside `runPythonCode`: either the promise
resolves with captured stdout/stderr, or it rejects (non-zero exit, timeout,
missing interpreter) with an error object carrying `stderr` (possibly empty)
and `message`. -/
inductive ExecOutcome where
  | ok (stdout stderr : String)
  | err (stderr msg : String)
deriving DecidableEq, Repr

/-- Environment of one `runPythonCode` call: what the filesystem and the child
process do.  `writeOk` tells whether `fs.writeFile` succeeds (`writeErr` is the
error message otherwise); `exec` is the `execAsync` outcome; the final
`fs.unlink(filePath).catch(() => \x7b\x7d)` is fire-and-forget, so
`unlinkSettled` tells whether that unlink promise has settled by the time the
call returns, and `unlinkOk` whether the unlink itself succeeds. -/
structure SandboxEnv where
  writeOk : Bool
  writeErr : String
  exec : ExecOutcome
  unlinkSettled : Bool
  unlinkOk : Bool
deriving DecidableEq, Repr

/-- Observable return of `runPythonCode`: the `ExecResult` handed to the
caller, the content written to the temporary file, whether an unlink of that
file was issued on the way out, and whether the temporary file still exists at
the moment the call returns. -/
structure RunReturn where
  result : ExecResult
  fileContent : String
  unlinkIssued : Bool
  fileExistsAfter : Bool
deriving DecidableEq, Repr

/-- Shallow embedding of `runPythonCode` (lines 10–57 of
`src/app/api/code-fix/route.ts`).  The `try` writes the file and runs it;
success is decided by searching stdout for `TEST_PASSED`; on failure the
output is `stdout || stderr`; the `catch` returns `error.stderr ||
error.message`; the `finally` issues `fs.unlink(filePath).catch(() => \x7b\x7d)`
without awaiting it, so the file is gone at return time only if that unlink
has settled successfully. -/
def runPythonCode (env : SandboxEnv) (code : String) (testCases : List String) :
    RunReturn :=
  let content := assembledFile code testCases
  if env.writeOk then
    let result : ExecResult :=
      match env.exec with
      | .ok stdout stderr =>
          if strIncludes stdout "TEST_PASSED" then ⟨true, stdout⟩
          else ⟨false, if stdout = "" then stderr else stdout⟩
      | .err stderr msg => ⟨false, if stderr = "" then msg else stderr⟩
    ⟨result, content, true, !(env.unlinkSettled && env.unlinkOk)⟩
  else
    -- fs.writeFile threw: the catch returns the error, the finally still
    -- issues the unlink (which trivially leaves no file behind).
    ⟨⟨false, env.writeErr⟩, content, true, false⟩

/-! ## Repair-loop state machine (`streamFixProcess`, lines 73–277)

One loop iteration performs one `openai.chat.completions.create` call; the
environment's behaviour for that iteration (the assistant's response, the
`JSON.parse` outcomes, and the sandbox results on the paths that reach them)
is packaged as a `LoopEvent`.  The regex classification of a failing test
output (line 231) is a pure function of the output and is passed as the
`matchDep` parameter of the step function. -/

/-- Conversation roles.  The source stores messages as untyped objects with a
`role` field; only these three roles ever appear. -/
inductive Role where
  | user
  | assistant
  | tool
deriving DecidableEq, Repr

/-- A conversation message as pushed onto `chatMessages`. -/
structure ChatMsg where
  role : Role
  content : String
  tool_call_id : Option String := none
deriving DecidableEq, Repr

/-- Parsed arguments of a `run_python_code` tool call. -/
structure RunParams where
  code : String
  testCases : List String
deriving DecidableEq, Repr

/-- Environment behaviour of one loop iteration (one chat-completion call).

* `apiError`: the `create` call threw (outer catch, line 267).
* `noToolCall`: the response carried no `tool_calls[0]` (line 263).
* `depCall id parsed install`: `tool_calls[0]` named `download_dependency`
  with tool-call id `id`; `parsed` is the `JSON.parse` outcome of its
  arguments (`none` = parse threw); `install` is the `downloadDependency`
  result, consulted only when parsing succeeded.
* `runCall id parsed run auto`: `tool_calls[0]` named `run_python_code`;
  `parsed` as above; `run` is the `runPythonCode` result, and `auto` the
  `downloadDependency` result of the auto-recovery branch, consulted only
  when the run failed with a recognized missing-dependency diagnostic.
* `otherCall name id`: `tool_calls[0]` carried an unrecognized name. -/
inductive LoopEvent where
  | apiError (msg : String)
  | noToolCall
  | depCall (id : Option String) (parsed : Option String) (install : ExecResult)
  | runCall (id : Option String) (parsed : Option RunParams) (run : ExecResult)
      (auto : ExecResult)
  | otherCall (name : String) (id : Option String)
deriving DecidableEq, Repr

/-- State of the repair loop.  `attempt`, `successfulCode` (paired with
`successfulTestCases`) and `chatMessages` are the source's mutable locals;
`requests` (the tool calls received from the reasoning service, name and id)
and `installs` (the dependencies passed to `downloadDependency`) and `calls`
(the number of chat-completion calls made) instrument the loop's observable
interactions for the theorems below. -/
structure LoopState where
  attempt : Nat
  successfulCode : Option (String × List String)
  chatMessages : List ChatMsg
  requests : List (String × Option String)
  installs : List String
  calls : Nat
deriving DecidableEq, Repr

/-- Initial state: `attempt = 0`, no successful code, and the conversation
seeded with the initial user prompt (line 82). -/
def initState (prompt : String) : LoopState :=
  ⟨0, none, [⟨.user, prompt, none⟩], [], [], 0⟩

/-- A user-role message. -/
def userMsg (content : String) : ChatMsg := ⟨.user, content, none⟩

/-- The tool-role result message for a tool call: pushed only when the tool
call carried an id (the `if (toolCallId)` guards). -/
def toolMsgIfId (id : Option String) (content : String) : List ChatMsg :=
  match id with
  | some i => [⟨.tool, content, some i⟩]
  | none => []

/-- `JSON.stringify` of an `ExecResult`, as pushed into tool messages
(idealized: string escaping is not modelled). -/
def execResultJson (r : ExecResult) : String :=
  "\x7b\"success\":" ++ (if r.success then "true" else "false")
    ++ ",\"output\":\"" ++ r.output ++ "\"\x7d"

/-- Content of the tool message pushed when `JSON.parse` of a tool call's
arguments throws (lines 157 and 201). -/
def parseErrJson (toolName : String) : String :=
  "\x7b\"error\":\"Error parsing function arguments for " ++ toolName ++ "\"\x7d"

/-- The re-prompt pushed after a parse failure (lines 163–166 and 207–210). -/
def parseFailPrompt (toolName : String) : String :=
  "Function call arguments for " ++ toolName
    ++ " could not be parsed. Please ensure proper JSON formatting."

/-- The user message after a successful model-requested install (line 182). -/
def installOkPrompt (dep : String) : String :=
  "Successfully installed dependency " ++ dep
    ++ ". Please regenerate the code fix if necessary."

/-- The user message after a failed model-requested install (line 188). -/
def installFailPrompt (dep output : String) : String :=
  "Failed to install dependency " ++ dep ++ ": " ++ output
    ++ ". Please correct the installation and try again."

/-- The retry prompt pushed when the auto-recovery install succeeds
(line 240). -/
def retryPrompt (dep : String) : String :=
  "Dependency " ++ dep ++ " installed successfully. Please retry generating the code fix."

/-- The user message pushed when the auto-recovery install fails (line 245). -/
def autoInstallFailPrompt (dep output : String) : String :=
  "Failed to install dependency " ++ dep ++ ": " ++ output
    ++ ". Please check the installation."

/-- The re-prompt after a test failure with no recognized dependency
diagnostic (line 254). -/
def testsFailedPrompt (output code prompt : String) : String :=
  "The tests failed with the error: " ++ output ++ ". The code: " ++ code
    ++ ". The original issue: " ++ prompt ++ ". Please improve the code fix accordingly."

/-- One iteration of the `while` body of `streamFixProcess` (lines 84–271),
as a function of the iteration's environment behaviour `ev`.  `matchDep`
embeds the regex scan
`/ModuleNotFoundError: No module named ['"]([^'"]+)['"]/` of line 231 as an
abstract classifier from a failure output to the named dependency.  `prompt`
is the original issue prompt (captured by the closure, used in the test-failure
re-prompt). -/
def stepLoop (matchDep : String → Option String) (prompt : String)
    (ev : LoopEvent) (s : LoopState) : LoopState :=
  let s := { s with calls := s.calls + 1 }
  match ev with
  | .apiError _ => { s with attempt := s.attempt + 1 }
  | .noToolCall => { s with attempt := s.attempt + 1 }
  | .otherCall name id =>
      { s with requests := s.requests ++ [(name, id)], attempt := s.attempt + 1 }
  | .depCall id parsed install =>
      let s := { s with requests := s.requests ++ [("download_dependency", id)] }
      match parsed with
      | none =>
          { s with
            chatMessages := s.chatMessages
              ++ toolMsgIfId id (parseErrJson "download_dependency")
              ++ [userMsg (parseFailPrompt "download_dependency")],
            attempt := s.attempt + 1 }
      | some dep =>
          let s := { s with
            installs := s.installs ++ [dep],
            chatMessages := s.chatMessages ++ toolMsgIfId id (execResultJson install) }
          if install.success then
            { s with chatMessages := s.chatMessages ++ [userMsg (installOkPrompt dep)] }
          else
            { s with
              chatMessages := s.chatMessages
                ++ [userMsg (installFailPrompt dep install.output)],
              attempt := s.attempt + 1 }
  | .runCall id parsed run auto =>
      let s := { s with requests := s.requests ++ [("run_python_code", id)] }
      match parsed with
      | none =>
          { s with
            chatMessages := s.chatMessages
              ++ toolMsgIfId id (parseErrJson "run_python_code")
              ++ [userMsg (parseFailPrompt "run_python_code")],
            attempt := s.attempt + 1 }
      | some params =>
          let s := { s with
            chatMessages := s.chatMessages ++ toolMsgIfId id (execResultJson run) }
          if run.success then
            { s with successfulCode := some (params.code, params.testCases) }
          else
            match matchDep run.output with
            | some dep =>
                let s := { s with installs := s.installs ++ [dep] }
                if auto.success then
                  { s with chatMessages := s.chatMessages ++ [userMsg (retryPrompt dep)] }
                else
                  { s with
                    chatMessages := s.chatMessages
                      ++ [userMsg (autoInstallFailPrompt dep auto.output)],
                    attempt := s.attempt + 1 }
            | none =>
                { s with
                  chatMessages := s.chatMessages
                    ++ [userMsg (testsFailedPrompt run.output params.code prompt)],
                  attempt := s.attempt + 1 }

/-- The `while (attempt < maxAttempts && !successfulCode)` loop, consuming one
event per iteration; `maxAttempts = 5` (line 77). -/
def runLoop (matchDep : String → Option String) (prompt : String) :
    List LoopEvent → LoopState → LoopState
  | [], s => s
  | ev :: evs, s =>
      if s.attempt < 5 ∧ s.successfulCode = none then
        runLoop matchDep prompt evs (stepLoop matchDep prompt ev s)
      else s

/-- Terminal outcome of the repair process. -/
inductive RepairOutcome where
  | success (code : String) (tests : List String)
  | failure
deriving DecidableEq, Repr

/-- Outcome read off the final state (lines 272–276). -/
def outcome (s : LoopState) : RepairOutcome :=
  match s.successfulCode with
  | some (c, t) => .success c t
  | none => .failure

/-- The final progress message (lines 272–276): the exhaustion message when no
working fix was found. -/
def finalMessage (s : LoopState) : String :=
  match s.successfulCode with
  | none => "Failed to generate a working fix after 5 attempts.\n\n"
  | some (c, t) =>
      "Final working fix:\n\nCode Fix:\n" ++ c ++ "\n\nTest Cases:\n"
        ++ String.intercalate "\n" t ++ "\n\n"

/-- Recognizer for the C1 scenario event: a well-parsed `run_python_code` call
whose sandbox run fails with no recognizable dependency diagnostic. -/
def isTestFailNoDep (matchDep : String → Option String) : LoopEvent → Bool
  | .runCall _ (some _) run _ => !run.success && (matchDep run.output).isNone
  | _ => false

/-! ## Chunker (`chunkText`, `src/app/api/tokenize/route.ts` lines 21–35) -/

/-- The external tokenizer (`js-tiktoken`'s `encodingForModel`), abstracted as
an encode/decode pair; the chunker's logic is independent of the concrete
token vocabulary. -/
structure Tokenizer where
  encode : String → List Nat
  decode : List Nat → String

/-- The `for (let i = 0; i < tokens.length; i += maxTokens)` slicing loop of
`chunkText`: contiguous windows of `m` tokens, the last possibly shorter.
(The source's loop never terminates for `m = 0`; the only call site uses
`m = 2048`, and the `m = 0` guard here just makes the recursion total.) -/
def chunkWindows (m : Nat) (tokens : List Nat) : List (List Nat) :=
  if h : m = 0 ∨ tokens = [] then []
  else tokens.take m :: chunkWindows m (tokens.drop m)
termination_by tokens.length
decreasing_by
  simp only [not_or] at h
  have h1 : 0 < m := Nat.pos_of_ne_zero h.1
  have h2 : 0 < tokens.length := List.length_pos.mpr h.2
  simp only [List.length_drop]
  omega

/-- Shallow embedding of `chunkText`: encode, return the text unchanged as a
single chunk when it fits, otherwise decode each token window. -/
def chunkText (tz : Tokenizer) (text : String) (maxTokens : Nat) : List String :=
  let tokens := tz.encode text
  if tokens.length ≤ maxTokens then [text]
  else (chunkWindows maxTokens tokens).map tz.decode

/-- Global (leftmost, non-overlapping) deletion of a pattern from a character
list, the semantics of a JavaScript global regex replace by the empty string.
`skip` counts characters of a found occurrence still to be consumed. -/
def dropPatGo (pat : List Char) : Nat → List Char → List Char
  | _, [] => []
  | skip + 1, _ :: cs => dropPatGo pat skip cs
  | 0, c :: cs =>
      if !pat.isEmpty && pat.isPrefixOf (c :: cs) then dropPatGo pat (pat.length - 1) cs
      else c :: dropPatGo pat 0 cs

/-- The sentinel stripping performed by `getEmbedding` (line 117) before
chunking: a global replace of the end-of-text sentinel by the empty string. -/
def stripSentinel (text : String) : String :=
  String.mk (dropPatGo "<|endoftext|>".toList 0 text.toList)

/-- The chunking phase of `getEmbedding` (lines 112–122): strip the sentinel,
then chunk with `MAX_TOKENS_PER_CHUNK = 2048`. -/
def getEmbeddingChunks (tz : Tokenizer) (text : String) : List String :=
  chunkText tz (stripSentinel text) 2048

/-! ## Embedding client (`fetchEmbedding`, lines 40–89) -/

/-- Outcome of one `fetch` attempt against the embedding endpoint, as
distinguished by the source: a 200 with a parsed embedding, a 429
(rate limit), another non-ok response, or a thrown exception (network fault,
JSON parse failure, missing `data.data[0]`). -/
inductive FetchOutcome (α : Type) where
  | ok (v : α)
  | rateLimit (statusText : String)
  | failResp (statusText : String)
  | thrown (msg : String)

/-- Result of `fetchEmbedding`: the embedding, or the propagated error's
message. -/
inductive FetchRes (α : Type) where
  | success (v : α)
  | error (msg : String)

/-- The message of the error propagated when the retry ceiling is exhausted on
the given outcome: a non-ok response (429 included — at the ceiling the 429
falls through to the `!response.ok` throw) propagates
`Error fetching embedding: <statusText>`; a thrown exception is rethrown. -/
def fetchErrMsg {α : Type} : FetchOutcome α → String
  | .ok _ => ""
  | .rateLimit st => "Error fetching embedding: " ++ st
  | .failResp st => "Error fetching embedding: " ++ st
  | .thrown m => m

/-- Whether an attempt outcome is a success. -/
def fetchIsOk {α : Type} : FetchOutcome α → Bool
  | .ok _ => true
  | _ => false

/-- The retry loop of `fetchEmbedding`, with `o i` the outcome of the `i`-th
attempt, `fuel = maxRetries - retryCount` and `wait` the current backoff.
Every non-ok outcome retries after `wait` ms while fuel remains (the 429 via
the explicit rate-limit branch, other errors via the `catch`), doubling the
wait; with no fuel left the error propagates.  The second component collects
the backoff waits performed. -/
def fetchGo {α : Type} (o : Nat → FetchOutcome α) (i fuel wait : Nat) :
    FetchRes α × List Nat :=
  match o i, fuel with
  | .ok v, _ => (.success v, [])
  | out, 0 => (.error (fetchErrMsg out), [])
  | _, fuel + 1 =>
      let r := fetchGo o (i + 1) fuel (2 * wait)
      (r.1, wait :: r.2)

/-- Shallow embedding of `fetchEmbedding`: `maxRetries = 5`, initial wait
500 ms. -/
def fetchEmbedding {α : Type} (o : Nat → FetchOutcome α) : FetchRes α × List Nat :=
  fetchGo o 0 5 500

/-! ## Cosine similarity (`cosineSimilarity`, lines 137–150) -/

/-- The accumulation loop of `cosineSimilarity`, which for equal-length
vectors (the scope of the claims, and the shape of every call site: embeddings
of the service's fixed dimensionality) sums `vecA[i] * vecB[i]` pairwise. -/
def dotList : List ℝ → List ℝ → ℝ
  | a :: as, b :: bs => a * b + dotList as bs
  | _, _ => 0

/-- Shallow embedding of `cosineSimilarity`: `dot / (√normA * √normB)` with
`normA`/`normB` the accumulated squared magnitudes `dotList v v`, and 0 when
either squared magnitude is 0 (the explicit guard of lines 146–148). -/
noncomputable def cosineSimilarity (vecA vecB : List ℝ) : ℝ :=
  if dotList vecA vecA = 0 ∨ dotList vecB vecB = 0 then 0
  else dotList vecA vecB / (Real.sqrt (dotList vecA vecA) * Real.sqrt (dotList vecB vecB))

/-! ## Similarity index (`POST`, lines 160–211) -/

/-- A caller-supplied document, `{ filePath, content }`. -/
structure SourceFile where
  filePath : String
  content : String

/-- An indexed record, `SourceFile` plus its embedding. -/
structure CodeIndexRecord where
  filePath : String
  content : String
  embedding : List ℝ

/-- A scored query candidate: the source builds it as `{ ...file, score }`,
so it carries all three record fields (the embedding included) plus the
score. -/
structure ScoredFile where
  filePath : String
  content : String
  embedding : List ℝ
  score : ℝ

/-- The per-record scoring of the query path (lines 195–198). -/
noncomputable def scoreFile (queryEmbedding : List ℝ) (f : CodeIndexRecord) :
    ScoredFile :=
  ⟨f.filePath, f.content, f.embedding, cosineSimilarity queryEmbedding f.embedding⟩

/-- Stable descending insertion: `x` is placed before the first element whose
score does not exceed it. -/
noncomputable def insertByScore (x : ScoredFile) : List ScoredFile → List ScoredFile
  | [] => [x]
  | y :: ys => if x.score ≥ y.score then x :: y :: ys else y :: insertByScore x ys

/-- The `scoredFiles.sort((a, b) => b.score - a.score)` of line 201.
ECMAScript's `Array.prototype.sort` is stable, and with this comparator its
output is the unique permutation that is descending by score and preserves the
input order among equal scores; this stable insertion sort computes exactly
that permutation (sortedness and stability are proved below). -/
noncomputable def sortByScoreDesc : List ScoredFile → List ScoredFile
  | [] => []
  | x :: xs => insertByScore x (sortByScoreDesc xs)

/-- The descending-score ordering of the query response: a precedes b when
its score is at least b's. -/
def scoreGE (a b : ScoredFile) : Prop := b.score ≤ a.score

/-- A `POST` request body, after the source's shape checks: `index` carries
`files` (`none` models a non-array value, rejected by `Array.isArray`), and
`query` carries the query (`none` models a non-string value). -/
inductive TkReq where
  | index (files : Option (List SourceFile))
  | query (q : Option String)

/-- Environment of one `POST` call: the embedding service's answer per text
(`emb`), and whether some `getEmbedding` call of this request threw
(`embFails`, surfacing as a 500 with message `errMsg` via the outer catch). -/
structure TkEnv where
  emb : String → List ℝ
  embFails : Bool
  errMsg : String

/-- A `POST` response: the index-built message with its `fileCount`, a query
result list, or an error with its HTTP status. -/
inductive TkResp where
  | ok (message : String) (fileCount : Nat)
  | results (r : List ScoredFile)
  | err (status : Nat) (msg : String)

/-- Shallow embedding of the `POST` handler of `src/app/api/tokenize/route.ts`
as a transition on the module-level `codeIndex` state.  On `index`, the
`Promise.all` fan-out either rejects (leaving `codeIndex` unchanged, 500) or
replaces the whole index; an empty fan-out cannot reject.  On `query`, the
handler rejects a missing query string, then an empty index, then scores every
record, sorts descending and returns the top 3. -/
noncomputable def tkPost (env : TkEnv) (req : TkReq)
    (codeIndex : List CodeIndexRecord) : List CodeIndexRecord × TkResp :=
  match req with
  | .index none => (codeIndex, .err 400 "Files array is required for indexing.")
  | .index (some files) =>
      if !files.isEmpty && env.embFails then (codeIndex, .err 500 env.errMsg)
      else
        let newIndex : List CodeIndexRecord :=
          files.map fun f => ⟨f.filePath, f.content, env.emb f.content⟩
        (newIndex, .ok "Embedding index built successfully." newIndex.length)
  | .query none => (codeIndex, .err 400 "A query string is required for searching.")
  | .query (some q) =>
      if codeIndex.isEmpty then
        (codeIndex, .err 400 "Embedding index not built yet. Please index the files first.")
      else if env.embFails then (codeIndex, .err 500 env.errMsg)
      else
        let queryEmbedding := env.emb q
        let scoredFiles := codeIndex.map (scoreFile queryEmbedding)
        (codeIndex, .results ((sortByScoreDesc scoredFiles).take 3))

/-- Folding a script of requests (each with its own environment) through
`tkPost` from a given index state, collecting the responses. -/
noncomputable def tkRun : List (TkEnv × TkReq) → List CodeIndexRecord →
    List CodeIndexRecord × List TkResp
  | [], idx => (idx, [])
  | (env, req) :: rest, idx =>
      ((tkRun rest (tkPost env req idx).1).1,
        (tkPost env req idx).2 :: (tkRun rest (tkPost env req idx).1).2)

/-! ## JSON shape of a query result entry

`NextResponse.json({ results: scoredFiles.slice(0, 3) })` serializes each
entry with every enumerable field of the spread record.  The claims about
which fields a returned entry consists of are stated against this
serialization. -/

/-- A minimal JSON value model. -/
inductive JsonVal where
  | str (s : String)
  | num (x : ℝ)
  | arr (l : List JsonVal)
  | obj (fields : List (String × JsonVal))

/-- The serialized form of one returned query entry: the spread
`{ ...file, score }` yields the fields `filePath`, `content`, `embedding`,
`score`, in that order. -/
def scoredFileJson (f : ScoredFile) : JsonVal :=
  .obj [("filePath", .str f.filePath), ("content", .str f.content),
    ("embedding", .arr (f.embedding.map .num)), ("score", .num f.score)]

/-- The field names of a serialized JSON object. -/
def jsonKeys : JsonVal → List String
  | .obj fields => fields.map Prod.fst
  | _ => []

/-- The entry list of a query response (empty for the other response
shapes). -/
def resultsOf : TkResp → List ScoredFile
  | .results r => r
  | _ => []

/-! ## Concrete instances and instrumentation used by the theorems -/

/-- Whether a request is a well-formed query (a string query). -/
def isQueryReq : TkReq → Bool
  | .query (some _) => true
  | _ => false

/-- The classifier of a failure output that recognizes no missing-dependency
diagnostic (the concrete regex never matching). -/
def mNone : String → Option String := fun _ => none

/-- A classifier whose diagnostic scan names the dependency `foo` on every
failure output. -/
def mFoo : String → Option String := fun _ => some "foo"

/-- A concrete loop event: a well-parsed `run_python_code` call whose sandbox
run fails with no missing-dependency diagnostic. -/
def failEv : LoopEvent :=
  .runCall (some "call_1") (some ⟨"def f(): pass", ["assert f() is None"]⟩)
    ⟨false, "AssertionError"⟩ ⟨false, ""⟩

/-- Number of tool-role result messages one loop iteration appends for a
given event: one for each known-named tool call carrying an id, none
otherwise (unknown tool names and id-less calls get no result turn). -/
def stepToolMsgs : LoopEvent → Nat
  | .depCall (some _) _ _ => 1
  | .runCall (some _) _ _ _ => 1
  | _ => 0

/-- Number of messages with the given role in a conversation. -/
def roleCount (r : Role) (msgs : List ChatMsg) : Nat :=
  (msgs.filter (fun msg => msg.role == r)).length

/-- The conversation invariant as the specification states its first half:
every tool-role turn is preceded, in the conversation itself, by an
assistant-issued turn. -/
def toolTurnsReferenced (s : LoopState) : Prop :=
  ∀ k ∈ List.range s.chatMessages.length,
    (s.chatMessages.getD k (userMsg "")).role = .tool →
      ∃ j ∈ List.range k, (s.chatMessages.getD j (userMsg "")).role = .assistant

/-- A concrete tokenizer (character codes) used to instantiate the chunker
theorems. -/
def witTokenizer : Tokenizer :=
  ⟨fun s => s.toList.map Char.toNat, fun l => String.mk (l.map Char.ofNat)⟩

/-! # Theorems -/

/-- C4, counterexample: on a filesystem where the fire-and-forget unlink
fails (its error swallowed by the `.catch`), `runPythonCode` returns — even
with a fully successful run — while the temporary file is still present,
refuting the claim that the file is absent on every exit path by the time the
call returns. -/
theorem claimC4_counterexample :
    (runPythonCode ⟨true, "", .ok "TEST_PASSED\n" "", true, false⟩ "print(1)"
        ["assert True"]).fileExistsAfter = true ∧
    (runPythonCode ⟨true, "", .ok "TEST_PASSED\n" "", true, false⟩ "print(1)"
        ["assert True"]).result.success = true :=
  ⟨rfl, by decide⟩

/-- C4, amended: on every exit path of `runPythonCode` (success, test
failure, or thrown fault — including a failed write) an unlink of the backing
temporary file is issued before the call returns, but the unlink is neither
awaited nor error-checked, so the file is guaranteed absent at return time
exactly when the write itself failed or the unlink has settled successfully
by then. -/
theorem claimC4_unlink_semantics (env : SandboxEnv) (code : String)
    (testCases : List String) :
    (runPythonCode env code testCases).unlinkIssued = true ∧
    ((runPythonCode env code testCases).fileExistsAfter = false ↔
      env.writeOk = false ∨ env.unlinkSettled = true ∧ env.unlinkOk = true) := by
  obtain ⟨w, we, ex, us, uo⟩ := env
  cases w <;> cases us <;> cases uo <;> simp [runPythonCode]

/-- C10: an `index` call with an empty document list succeeds and reports a
record count of 0, but leaves the index empty (whatever it held before), so
every subsequent query fails with the NotIndexed error condition even though
a rebuild has succeeded. -/
theorem claimC10_empty_rebuild (env : TkEnv) (idx : List CodeIndexRecord) :
    tkPost env (.index (some [])) idx = ([], .ok "Embedding index built successfully." 0) ∧
    ∀ (envQ : TkEnv) (q : String),
      (tkPost envQ (.query (some q)) []).2 =
        .err 400 "Embedding index not built yet. Please index the files first." :=
  ⟨rfl, fun _ _ => rfl⟩

/-- C7: from the initial (never indexed) state, any sequence of query
requests leaves the index absent and every one of them fails with the
NotIndexed error condition instead of returning results. -/
theorem claimC7_query_before_index (script : List (TkEnv × TkReq))
    (h : ∀ e ∈ script, isQueryReq e.2 = true) :
    (tkRun script []).1 = [] ∧
    ∀ r ∈ (tkRun script []).2,
      r = .err 400 "Embedding index not built yet. Please index the files first." := by
  induction script with
  | nil => exact ⟨rfl, by intro r hr; simp [tkRun] at hr⟩
  | cons e rest ih =>
      obtain ⟨env, req⟩ := e
      have hq := h _ (List.mem_cons_self _ _)
      cases req with
      | index f => simp [isQueryReq] at hq
      | query oq =>
          cases oq with
          | none => simp [isQueryReq] at hq
          | some q =>
              have hrest := ih (fun e he => h e (List.mem_cons_of_mem _ he))
              have hpost : tkPost env (.query (some q)) ([] : List CodeIndexRecord) =
                  ([], .err 400 "Embedding index not built yet. Please index the files first.") := rfl
              refine ⟨?_, ?_⟩
              · show (tkRun rest (tkPost env (.query (some q)) []).1).1 = []
                rw [hpost]
                exact hrest.1
              · intro r hr
                simp only [tkRun, hpost, List.mem_cons] at hr
                rcases hr with hr | hr
                · exact hr
                · exact hrest.2 r hr

/-- C7, witness: a concrete two-query script against the never-indexed
state. -/
theorem claimC7_witness :
    (∀ e ∈ [((⟨fun _ => [], false, ""⟩ : TkEnv), TkReq.query (some "a")),
        ((⟨fun _ => [], false, ""⟩ : TkEnv), TkReq.query (some "b"))],
      isQueryReq e.2 = true) ∧
    ∀ r ∈ (tkRun [((⟨fun _ => [], false, ""⟩ : TkEnv), TkReq.query (some "a")),
        ((⟨fun _ => [], false, ""⟩ : TkEnv), TkReq.query (some "b"))] []).2,
      r = .err 400 "Embedding index not built yet. Please index the files first." :=
  ⟨fun e he => by
    simp only [List.mem_cons, List.not_mem_nil, or_false] at he
    rcases he with rfl | rfl <;> rfl,
   (claimC7_query_before_index _ (fun e he => by
      simp only [List.mem_cons, List.not_mem_nil, or_false] at he
      rcases he with rfl | rfl <;> rfl)).2⟩

/-- Reduction of one failed attempt of the retry loop while fuel remains. -/
theorem fetchGo_not_ok_succ {α : Type} (o : Nat → FetchOutcome α) (i fuel wait : Nat)
    (h : fetchIsOk (o i) = false) :
    fetchGo o i (fuel + 1) wait =
      ((fetchGo o (i + 1) fuel (2 * wait)).1,
        wait :: (fetchGo o (i + 1) fuel (2 * wait)).2) := by
  conv_lhs => unfold fetchGo
  cases ho : o i with
  | ok v => rw [ho] at h; simp [fetchIsOk] at h
  | rateLimit st => rfl
  | failResp st => rfl
  | thrown m => rfl

/-- Reduction of a failed attempt with no fuel left: the error propagates. -/
theorem fetchGo_not_ok_zero {α : Type} (o : Nat → FetchOutcome α) (i wait : Nat)
    (h : fetchIsOk (o i) = false) :
    fetchGo o i 0 wait = (.error (fetchErrMsg (o i)), []) := by
  conv_lhs => unfold fetchGo
  cases ho : o i with
  | ok v => rw [ho] at h; simp [fetchIsOk] at h
  | rateLimit st => rfl
  | failResp st => rfl
  | thrown m => rfl

/-- Reduction of a successful attempt: the embedding is returned at once. -/
theorem fetchGo_ok {α : Type} (o : Nat → FetchOutcome α) (i fuel wait : Nat) (v : α)
    (h : o i = .ok v) :
    fetchGo o i fuel wait = (.success v, []) := by
  cases fuel with
  | zero =>
      conv_lhs => unfold fetchGo
      rw [h]
  | succ n =>
      conv_lhs => unfold fetchGo
      rw [h]

/-- The doubling-backoff wait list grows on the left. -/
theorem backoff_cons (wait fuel : Nat) :
    wait :: (List.range fuel).map (fun j => 2 * wait * 2 ^ j) =
      (List.range (fuel + 1)).map (fun j => wait * 2 ^ j) := by
  rw [List.range_succ_eq_map, List.map_cons, List.map_map]
  congr 1
  · simp
  · congr 1
    funext j
    show 2 * wait * 2 ^ j = wait * 2 ^ (j + 1)
    rw [pow_succ]
    ring

/-- If every attempt up to the fuel bound fails, the loop performs the full
doubling-backoff schedule and propagates the last attempt's error. -/
theorem fetchGo_all_fail {α : Type} (o : Nat → FetchOutcome α) :
    ∀ (fuel i wait : Nat), (∀ j, j ≤ fuel → fetchIsOk (o (i + j)) = false) →
      fetchGo o i fuel wait =
        (.error (fetchErrMsg (o (i + fuel))), (List.range fuel).map fun j => wait * 2 ^ j) := by
  intro fuel
  induction fuel with
  | zero =>
      intro i wait h
      have h0 := h 0 (Nat.le_refl 0)
      rw [Nat.add_zero] at h0 ⊢
      simp [fetchGo_not_ok_zero o i wait h0]
  | succ fuel ih =>
      intro i wait h
      have h0 := h 0 (Nat.zero_le _)
      rw [Nat.add_zero] at h0
      rw [fetchGo_not_ok_succ o i fuel wait h0]
      have hsh : ∀ j, j ≤ fuel → fetchIsOk (o (i + 1 + j)) = false := by
        intro j hj
        have := h (j + 1) (by omega)
        rwa [show i + (j + 1) = i + 1 + j by omega] at this
      rw [ih (i + 1) (2 * wait) hsh]
      rw [show i + 1 + fuel = i + (fuel + 1) by omega]
      rw [backoff_cons]

/-- If the first `k` attempts fail and attempt `k` succeeds within the fuel
bound, the loop performs exactly `k` doubling-backoff waits and returns the
embedding. -/
theorem fetchGo_succeeds {α : Type} (o : Nat → FetchOutcome α) :
    ∀ (k fuel i wait : Nat) (v : α), k ≤ fuel →
      (∀ j, j < k → fetchIsOk (o (i + j)) = false) → o (i + k) = .ok v →
      fetchGo o i fuel wait = (.success v, (List.range k).map fun j => wait * 2 ^ j) := by
  intro k
  induction k with
  | zero =>
      intro fuel i wait v _ _ hok
      rw [Nat.add_zero] at hok
      simp [fetchGo_ok o i fuel wait v hok]
  | succ k ih =>
      intro fuel i wait v hk hfail hok
      obtain ⟨fuel, rfl⟩ : ∃ f, fuel = f + 1 := ⟨fuel - 1, by omega⟩
      have h0 := hfail 0 (Nat.succ_pos k)
      rw [Nat.add_zero] at h0
      rw [fetchGo_not_ok_succ o i fuel wait h0]
      have hsh : ∀ j, j < k → fetchIsOk (o (i + 1 + j)) = false := by
        intro j hj
        have := hfail (j + 1) (by omega)
        rwa [show i + (j + 1) = i + 1 + j by omega] at this
      rw [ih fuel (i + 1) (2 * wait) v (by omega) hsh
        (by rwa [show i + 1 + k = i + (k + 1) by omega])]
      rw [backoff_cons]

/-- C5: `fetchEmbedding` treats every attempt failure — rate-limit signal,
non-rate-limit HTTP error response, or thrown exception — uniformly: it
retries up to 5 times with exponential backoff starting at 500 ms and
doubling each attempt (500, 1000, 2000, 4000, 8000 ms), and propagates the
error only once that ceiling is exhausted; a success within the ceiling
returns the embedding after exactly the backoff waits already performed. -/
theorem claimC5_retry_backoff {α : Type} (o : Nat → FetchOutcome α) :
    ((∀ i, i ≤ 5 → fetchIsOk (o i) = false) →
      fetchEmbedding o = (.error (fetchErrMsg (o 5)), [500, 1000, 2000, 4000, 8000])) ∧
    (∀ k v, k ≤ 5 → (∀ i, i < k → fetchIsOk (o i) = false) → o k = .ok v →
      fetchEmbedding o = (.success v, (List.range k).map fun j => 500 * 2 ^ j)) := by
  constructor
  · intro h
    have hall := fetchGo_all_fail o 5 0 500 (fun j hj => by
      have := h j hj
      simpa using this)
    rw [fetchEmbedding, hall]
    norm_num
    decide
  · intro k v hk hfail hok
    exact fetchGo_succeeds o k 5 0 500 v hk
      (fun j hj => by simpa using hfail j hj) (by simpa using hok)

/-- C5, witness: a stream of nothing but rate-limit signals exhausts exactly
the five-wait doubling schedule and then fails. -/
theorem claimC5_witness :
    (∀ i, i ≤ 5 →
      fetchIsOk ((fun _ => FetchOutcome.rateLimit (α := Nat) "Too Many Requests") i) = false) ∧
    fetchEmbedding (fun _ => FetchOutcome.rateLimit (α := Nat) "Too Many Requests") =
      (.error (fetchErrMsg (FetchOutcome.rateLimit (α := Nat) "Too Many Requests")),
        [500, 1000, 2000, 4000, 8000]) :=
  ⟨fun _ _ => rfl,
    (claimC5_retry_backoff (fun _ => FetchOutcome.rateLimit (α := Nat) "Too Many Requests")).1
      (fun _ _ => rfl)⟩

/-- The token windows of `chunkWindows` concatenate back to the original
token sequence (`n` bounds the recursion depth by the list length). -/
theorem chunkWindowsJoinAux (m : Nat) (hm : 0 < m) :
    ∀ (n : Nat) (ts : List Nat), ts.length ≤ n → (chunkWindows m ts).flatten = ts := by
  intro n
  induction n with
  | zero =>
      intro ts h
      have hts : ts = [] := List.eq_nil_of_length_eq_zero (Nat.le_zero.mp h)
      subst hts
      rw [chunkWindows]
      simp
  | succ n ih =>
      intro ts h
      by_cases hts : ts = []
      · subst hts; rw [chunkWindows]; simp
      · rw [chunkWindows, dif_neg (by push_neg; exact ⟨by omega, hts⟩)]
        rw [List.flatten_cons]
        rw [ih (ts.drop m) (by
          rw [List.length_drop]
          have := List.length_pos.mpr hts
          omega)]
        exact List.take_append_drop m ts

/-- Every window of `chunkWindows` is nonempty and has at most `m` tokens. -/
theorem chunkWindowsLenAux (m : Nat) (hm : 0 < m) :
    ∀ (n : Nat) (ts : List Nat), ts.length ≤ n →
      ∀ w ∈ chunkWindows m ts, 0 < w.length ∧ w.length ≤ m := by
  intro n
  induction n with
  | zero =>
      intro ts h w hw
      have hts : ts = [] := List.eq_nil_of_length_eq_zero (Nat.le_zero.mp h)
      subst hts
      rw [chunkWindows] at hw
      simp at hw
  | succ n ih =>
      intro ts h w hw
      by_cases hts : ts = []
      · subst hts; rw [chunkWindows] at hw; simp at hw
      · rw [chunkWindows, dif_neg (by push_neg; exact ⟨by omega, hts⟩)] at hw
        have hpos := List.length_pos.mpr hts
        rcases List.mem_cons.mp hw with hw | hw
        · subst hw
          rw [List.length_take]
          omega
        · exact ih (ts.drop m) (by rw [List.length_drop]; omega) w hw

/-- `chunkWindows` of an empty token list is empty. -/
theorem chunkWindows_nil (m : Nat) : chunkWindows m [] = [] := by
  rw [chunkWindows]; simp

/-- Every window except possibly the last has exactly `m` tokens. -/
theorem chunkWindowsDropLastAux (m : Nat) (hm : 0 < m) :
    ∀ (n : Nat) (ts : List Nat), ts.length ≤ n →
      ∀ w ∈ (chunkWindows m ts).dropLast, w.length = m := by
  intro n
  induction n with
  | zero =>
      intro ts h w hw
      have hts : ts = [] := List.eq_nil_of_length_eq_zero (Nat.le_zero.mp h)
      subst hts
      rw [chunkWindows_nil] at hw
      simp at hw
  | succ n ih =>
      intro ts h w hw
      by_cases hts : ts = []
      · subst hts; rw [chunkWindows_nil] at hw; simp at hw
      · rw [chunkWindows, dif_neg (by push_neg; exact ⟨by omega, hts⟩)] at hw
        have hpos := List.length_pos.mpr hts
        by_cases hrest : chunkWindows m (ts.drop m) = []
        · rw [hrest] at hw
          simp at hw
        · rw [List.dropLast_cons_of_ne_nil hrest] at hw
          have hdrop : ts.drop m ≠ [] := by
            intro hd
            exact hrest (by rw [hd, chunkWindows_nil])
          have hlong : m < ts.length := by
            by_contra hc
            exact hdrop (List.drop_eq_nil_of_le (by omega))
          rcases List.mem_cons.mp hw with hw | hw
          · subst hw
            rw [List.length_take]
            omega
          · exact ih (ts.drop m) (by rw [List.length_drop]; omega) w hw

/-- C8: a text whose (sentinel-stripped) token count fits the budget is
returned as the single unchanged segment; an over-budget text is chunked into
decodings of contiguous token windows of exactly `maxTokens` tokens (the last
possibly shorter, never empty) whose token sequences concatenate to the
original token sequence. -/
theorem claimC8_chunking (tz : Tokenizer) (text : String) (m : Nat) :
    ((tz.encode (stripSentinel text)).length ≤ 2048 →
      getEmbeddingChunks tz text = [stripSentinel text]) ∧
    (0 < m → m < (tz.encode text).length →
      chunkText tz text m = (chunkWindows m (tz.encode text)).map tz.decode ∧
      (chunkWindows m (tz.encode text)).flatten = tz.encode text ∧
      (∀ w ∈ (chunkWindows m (tz.encode text)).dropLast, w.length = m) ∧
      ∀ w ∈ chunkWindows m (tz.encode text), 0 < w.length ∧ w.length ≤ m) := by
  constructor
  · intro h
    rw [getEmbeddingChunks, chunkText, if_pos h]
  · intro hm hlen
    refine ⟨?_, ?_, ?_, ?_⟩
    · rw [chunkText, if_neg (by omega)]
    · exact chunkWindowsJoinAux m hm (tz.encode text).length _ le_rfl
    · exact chunkWindowsDropLastAux m hm (tz.encode text).length _ le_rfl
    · exact chunkWindowsLenAux m hm (tz.encode text).length _ le_rfl

/-- C8, witness: the character-code tokenizer on a short text (single
segment) and on a two-token text with budget 1 (two windows). -/
theorem claimC8_witness :
    ((witTokenizer.encode (stripSentinel "hi")).length ≤ 2048 ∧
      getEmbeddingChunks witTokenizer "hi" = [stripSentinel "hi"]) ∧
    (0 < 1 ∧ 1 < (witTokenizer.encode "ab").length ∧
      chunkText witTokenizer "ab" 1 =
        (chunkWindows 1 (witTokenizer.encode "ab")).map witTokenizer.decode) :=
  ⟨⟨by decide, (claimC8_chunking witTokenizer "hi" 1).1 (by decide)⟩,
   ⟨by decide, by decide,
    ((claimC8_chunking witTokenizer "ab" 1).2 (by decide) (by decide)).1⟩⟩

/-- The accumulated dot product is symmetric. -/
theorem dotList_comm (a b : List ℝ) : dotList a b = dotList b a := by
  induction a generalizing b with
  | nil => cases b <;> rfl
  | cons x xs ih =>
      cases b with
      | nil => rfl
      | cons y ys => simp only [dotList]; rw [ih, mul_comm]

/-- A squared magnitude is nonnegative. -/
theorem dotList_self_nonneg (v : List ℝ) : 0 ≤ dotList v v := by
  induction v with
  | nil => simp [dotList]
  | cons x xs ih =>
      simp only [dotList]
      exact add_nonneg (mul_self_nonneg x) ih

/-- A vector with a nonzero component has positive squared magnitude. -/
theorem dotList_self_pos (v : List ℝ) (hv : ∃ x ∈ v, x ≠ 0) : 0 < dotList v v := by
  induction v with
  | nil => simp at hv
  | cons x xs ih =>
      simp only [dotList]
      rcases hv with ⟨y, hy, hy0⟩
      rcases List.mem_cons.mp hy with h | h
      · subst h
        exact add_pos_of_pos_of_nonneg (mul_self_pos.mpr hy0) (dotList_self_nonneg xs)
      · exact add_pos_of_nonneg_of_pos (mul_self_nonneg x) (ih ⟨y, h, hy0⟩)

/-- C9: for equal-length vectors, `cosineSimilarity` equals
`dot / (‖a‖ * ‖b‖)` whenever both magnitudes are nonzero, is symmetric,
returns 0 (a real number, never an undefined value) whenever either vector
has zero magnitude, and evaluates to 1 on any nonzero vector paired with
itself. -/
theorem claimC9_cosine (a b v : List ℝ) (hab : a.length = b.length)
    (hv : ∃ x ∈ v, x ≠ 0) :
    (dotList a a ≠ 0 → dotList b b ≠ 0 →
      cosineSimilarity a b =
        dotList a b / (Real.sqrt (dotList a a) * Real.sqrt (dotList b b))) ∧
    cosineSimilarity a b = cosineSimilarity b a ∧
    (dotList a a = 0 ∨ dotList b b = 0 → cosineSimilarity a b = 0) ∧
    cosineSimilarity v v = 1 := by
  refine ⟨?_, ?_, ?_, ?_⟩
  · intro ha hb
    rw [cosineSimilarity, if_neg (by tauto)]
  · by_cases h : dotList a a = 0 ∨ dotList b b = 0
    · rw [cosineSimilarity, if_pos h, cosineSimilarity, if_pos (Or.symm h)]
    · rw [cosineSimilarity, if_neg h, cosineSimilarity,
        if_neg (fun hc => h (Or.symm hc))]
      rw [dotList_comm a b, mul_comm]
  · intro h
    rw [cosineSimilarity, if_pos h]
  · have hpos := dotList_self_pos v hv
    rw [cosineSimilarity, if_neg (by simp [ne_of_gt hpos])]
    rw [Real.mul_self_sqrt (le_of_lt hpos), div_self (ne_of_gt hpos)]

/-- C9, witness: concrete one-dimensional vectors. -/
theorem claimC9_witness :
    (([(1 : ℝ)].length = [(2 : ℝ)].length ∧ ∃ x ∈ [(1 : ℝ)], x ≠ 0) ∧
      cosineSimilarity [(1 : ℝ)] [(1 : ℝ)] = 1) :=
  ⟨⟨rfl, ⟨1, List.mem_singleton.mpr rfl, one_ne_zero⟩⟩,
    (claimC9_cosine [(1 : ℝ)] [(2 : ℝ)] [(1 : ℝ)] rfl
      ⟨1, List.mem_singleton.mpr rfl, one_ne_zero⟩).2.2.2⟩

/-- Membership in a stable insertion is membership in the inserted element or
the list. -/
theorem mem_insertByScore (x z : ScoredFile) (l : List ScoredFile) :
    z ∈ insertByScore x l ↔ z = x ∨ z ∈ l := by
  induction l with
  | nil => simp [insertByScore]
  | cons y ys ih =>
      rw [insertByScore]
      by_cases h : x.score ≥ y.score
      · rw [if_pos h]
        simp [List.mem_cons]
      · rw [if_neg h]
        simp only [List.mem_cons, ih]
        tauto

/-- Stable insertion preserves the descending order. -/
theorem insertByScore_sorted (x : ScoredFile) (l : List ScoredFile)
    (h : List.Sorted scoreGE l) : List.Sorted scoreGE (insertByScore x l) := by
  induction l with
  | nil => simp [insertByScore, List.sorted_singleton]
  | cons y ys ih =>
      rcases List.sorted_cons.mp h with ⟨hy, hys⟩
      rw [insertByScore]
      by_cases hxy : x.score ≥ y.score
      · rw [if_pos hxy]
        refine List.sorted_cons.mpr ⟨?_, h⟩
        intro b hb
        rcases List.mem_cons.mp hb with rfl | hb
        · exact hxy
        · exact le_trans (hy b hb) hxy
      · rw [if_neg hxy]
        push_neg at hxy
        refine List.sorted_cons.mpr ⟨?_, ih hys⟩
        intro b hb
        rcases (mem_insertByScore x b ys).mp hb with rfl | hb
        · exact le_of_lt hxy
        · exact hy b hb

/-- The stable descending sort is sorted. -/
theorem sortByScoreDesc_sorted (l : List ScoredFile) :
    List.Sorted scoreGE (sortByScoreDesc l) := by
  induction l with
  | nil => simp [sortByScoreDesc]
  | cons x xs ih =>
      rw [sortByScoreDesc]
      exact insertByScore_sorted x _ ih

/-- Stable insertion adds one element. -/
theorem insertByScore_length (x : ScoredFile) (l : List ScoredFile) :
    (insertByScore x l).length = l.length + 1 := by
  induction l with
  | nil => rfl
  | cons y ys ih =>
      rw [insertByScore]
      by_cases h : x.score ≥ y.score
      · rw [if_pos h]
        simp
      · rw [if_neg h, List.length_cons, ih, List.length_cons]

/-- The stable descending sort preserves the length. -/
theorem sortByScoreDesc_length (l : List ScoredFile) :
    (sortByScoreDesc l).length = l.length := by
  induction l with
  | nil => rfl
  | cons x xs ih =>
      rw [sortByScoreDesc, insertByScore_length, ih, List.length_cons]

/-- Inserting an element places it in front of its own score class and leaves
every score class otherwise untouched. -/
theorem insertByScore_filter (x : ScoredFile) (l : List ScoredFile) (s : ℝ) :
    (insertByScore x l).filter (fun e => decide (e.score = s)) =
      if x.score = s then x :: l.filter (fun e => decide (e.score = s))
      else l.filter (fun e => decide (e.score = s)) := by
  induction l with
  | nil =>
      rw [insertByScore]
      by_cases hx : x.score = s <;> simp [List.filter, hx]
  | cons y ys ih =>
      rw [insertByScore]
      by_cases hxy : x.score ≥ y.score
      · rw [if_pos hxy]
        by_cases hx : x.score = s <;> simp [List.filter_cons, hx]
      · rw [if_neg hxy]
        by_cases hx : x.score = s
        · by_cases hy : y.score = s
          · exact absurd (ge_of_eq (hx.trans hy.symm)) hxy
          · simp [List.filter_cons, hx, hy, ih]
        · by_cases hy : y.score = s <;> simp [List.filter_cons, hx, hy, ih]

/-- Stability of the descending sort: every score class appears in its
original input order. -/
theorem sortByScoreDesc_filter (l : List ScoredFile) (s : ℝ) :
    (sortByScoreDesc l).filter (fun e => decide (e.score = s)) =
      l.filter (fun e => decide (e.score = s)) := by
  induction l with
  | nil => rfl
  | cons x xs ih =>
      rw [sortByScoreDesc, insertByScore_filter]
      by_cases hx : x.score = s <;> simp [List.filter_cons, hx, ih]

/-- C6, counterexample: a returned query entry is serialized with the fields
`filePath`, `content`, `embedding` and `score` — the embedding is exposed
too, so an entry does not consist of exactly the fields
identifier/content/score. -/
theorem claimC6_counterexample :
    (resultsOf (tkPost ⟨fun _ => [(1 : ℝ)], false, ""⟩ (.query (some "q"))
        [⟨"a.py", "print", [(1 : ℝ)]⟩]).2).map (fun e => jsonKeys (scoredFileJson e)) =
      [["filePath", "content", "embedding", "score"]] ∧
    (["filePath", "content", "embedding", "score"] : List String) ≠
      ["filePath", "content", "score"] :=
  ⟨rfl, by decide⟩

/-- C6, amended: for a nonempty index and a non-throwing embedding call, the
query path returns the top 3 (or fewer) entries of the stable descending sort
of the scored records: the response length is `min 3` the index size, the
returned entries are sorted by descending score, equal-score entries retain
their original index order, and each returned entry is serialized with the
four fields `filePath`, `content`, `embedding`, `score` (the full record plus
its score, not just identifier/content/score). -/
theorem claimC6_query_ranking (env : TkEnv) (q : String) (idx : List CodeIndexRecord)
    (hne : idx.isEmpty = false) (hok : env.embFails = false) :
    (tkPost env (.query (some q)) idx).2 =
      .results ((sortByScoreDesc (idx.map (scoreFile (env.emb q)))).take 3) ∧
    (resultsOf (tkPost env (.query (some q)) idx).2).length = min 3 idx.length ∧
    List.Sorted scoreGE (resultsOf (tkPost env (.query (some q)) idx).2) ∧
    (∀ s : ℝ, (sortByScoreDesc (idx.map (scoreFile (env.emb q)))).filter
        (fun e => decide (e.score = s)) =
      (idx.map (scoreFile (env.emb q))).filter (fun e => decide (e.score = s))) ∧
    ∀ e ∈ resultsOf (tkPost env (.query (some q)) idx).2,
      jsonKeys (scoredFileJson e) = ["filePath", "content", "embedding", "score"] := by
  have hpost : (tkPost env (.query (some q)) idx).2 =
      .results ((sortByScoreDesc (idx.map (scoreFile (env.emb q)))).take 3) := by
    simp [tkPost, hne, hok]
  refine ⟨hpost, ?_, ?_, ?_, ?_⟩
  · rw [hpost]
    show ((sortByScoreDesc (idx.map (scoreFile (env.emb q)))).take 3).length = _
    rw [List.length_take, sortByScoreDesc_length, List.length_map]
  · rw [hpost]
    show List.Sorted scoreGE ((sortByScoreDesc (idx.map (scoreFile (env.emb q)))).take 3)
    exact List.Pairwise.sublist (List.take_sublist 3 _)
      (sortByScoreDesc_sorted (idx.map (scoreFile (env.emb q))))
  · intro s
    exact sortByScoreDesc_filter _ s
  · rw [hpost]
    intro e _
    rfl

/-- C6, witness: the amended ranking theorem instantiated on a one-record
index. -/
theorem claimC6_witness :
    (([(⟨"a.py", "print", [(1 : ℝ)]⟩ : CodeIndexRecord)] : List CodeIndexRecord).isEmpty
        = false ∧
      (⟨fun _ => [(1 : ℝ)], false, ""⟩ : TkEnv).embFails = false) ∧
    List.Sorted scoreGE (resultsOf (tkPost ⟨fun _ => [(1 : ℝ)], false, ""⟩
      (.query (some "q")) [⟨"a.py", "print", [(1 : ℝ)]⟩]).2) :=
  ⟨⟨rfl, rfl⟩,
    (claimC6_query_ranking ⟨fun _ => [(1 : ℝ)], false, ""⟩ "q"
      [⟨"a.py", "print", [(1 : ℝ)]⟩] rfl rfl).2.2.1⟩

/-- Every loop iteration increments the attempt counter by at most one. -/
theorem stepLoop_attempt_le (m : String → Option String) (p : String)
    (ev : LoopEvent) (s : LoopState) :
    (stepLoop m p ev s).attempt ≤ s.attempt + 1 := by
  cases ev with
  | apiError msg => simp [stepLoop]
  | noToolCall => simp [stepLoop]
  | otherCall name id => simp [stepLoop]
  | depCall id parsed install =>
      cases parsed with
      | none => simp [stepLoop]
      | some dep =>
          by_cases h : install.success <;> simp [stepLoop, h] <;> omega
  | runCall id parsed run auto =>
      cases parsed with
      | none => simp [stepLoop]
      | some params =>
          by_cases hr : run.success
          · simp [stepLoop, hr] <;> omega
          · cases hd : m run.output with
            | none => simp [stepLoop, hr, hd]
            | some dep =>
                by_cases ha : auto.success <;> simp [stepLoop, hr, hd, ha] <;> omega

/-- The loop guard caps the attempt counter at the ceiling of 5. -/
theorem runLoop_attempt_le (m : String → Option String) (p : String) :
    ∀ (evs : List LoopEvent) (s : LoopState), s.attempt ≤ 5 →
      (runLoop m p evs s).attempt ≤ 5 := by
  intro evs
  induction evs with
  | nil => intro s h; exact h
  | cons ev evs ih =>
      intro s h
      rw [runLoop]
      by_cases hg : s.attempt < 5 ∧ s.successfulCode = none
      · rw [if_pos hg]
        exact ih _ (by have := stepLoop_attempt_le m p ev s; omega)
      · rw [if_neg hg]
        exact h

/-- Once the guard fails the loop consumes no further events: no more
reasoning-service calls are made. -/
theorem runLoop_stuck (m : String → Option String) (p : String)
    (evs : List LoopEvent) (s : LoopState)
    (h : ¬(s.attempt < 5 ∧ s.successfulCode = none)) : runLoop m p evs s = s := by
  cases evs with
  | nil => rfl
  | cons ev evs => rw [runLoop, if_neg h]

/-- A failing test run with no recognized dependency diagnostic increments
the attempt counter, leaves the success state unchanged and performs one
service call. -/
theorem stepLoop_testfail (m : String → Option String) (p : String)
    (id : Option String) (params : RunParams) (run auto : ExecResult) (s : LoopState)
    (hr : run.success = false) (hd : m run.output = none) :
    (stepLoop m p (.runCall id (some params) run auto) s).attempt = s.attempt + 1 ∧
    (stepLoop m p (.runCall id (some params) run auto) s).successfulCode
      = s.successfulCode ∧
    (stepLoop m p (.runCall id (some params) run auto) s).calls = s.calls + 1 := by
  refine ⟨?_, ?_, ?_⟩ <;> simp [stepLoop, hr, hd]

/-- A run of nothing but unrecognized test failures increments the counter
once per event while the budget lasts. -/
theorem runLoop_all_fail (m : String → Option String) (p : String) :
    ∀ (evs : List LoopEvent) (s : LoopState),
      (∀ ev ∈ evs, isTestFailNoDep m ev = true) →
      s.successfulCode = none → s.attempt + evs.length ≤ 5 →
      (runLoop m p evs s).attempt = s.attempt + evs.length ∧
      (runLoop m p evs s).successfulCode = none ∧
      (runLoop m p evs s).calls = s.calls + evs.length := by
  intro evs
  induction evs with
  | nil => intro s _ hs _; exact ⟨rfl, hs, rfl⟩
  | cons ev evs ih =>
      intro s hall hs hb
      have hev := hall ev (List.mem_cons_self _ _)
      cases ev with
      | apiError msg => simp [isTestFailNoDep] at hev
      | noToolCall => simp [isTestFailNoDep] at hev
      | otherCall name id => simp [isTestFailNoDep] at hev
      | depCall id parsed install => simp [isTestFailNoDep] at hev
      | runCall id parsed run auto =>
          cases parsed with
          | none => simp [isTestFailNoDep] at hev
          | some params =>
              rw [isTestFailNoDep, Bool.and_eq_true] at hev
              obtain ⟨hr, hd⟩ := hev
              have hr' : run.success = false := by
                revert hr; cases run.success <;> simp
              have hd' : m run.output = none := Option.isNone_iff_eq_none.mp hd
              rw [List.length_cons] at hb
              rw [runLoop, if_pos ⟨by omega, hs⟩]
              have hst := stepLoop_testfail m p id params run auto s hr' hd'
              have hrec := ih (stepLoop m p (.runCall id (some params) run auto) s)
                (fun e he => hall e (List.mem_cons_of_mem _ he))
                (hst.2.1.trans hs) (by rw [hst.1]; omega)
              refine ⟨?_, hrec.2.1, ?_⟩
              · rw [hrec.1, hst.1, List.length_cons]; omega
              · rw [hrec.2.2, hst.2.2, List.length_cons]; omega

/-- C1: for every run of the repair loop the attempt counter stays within
0 and 5; once the counter is at the ceiling of 5 without a successful test
run, the loop terminates immediately with the Failure outcome and its
exhaustion message, issuing no further reasoning-service calls; and five
consecutive unrecognized test failures from the initial state produce Failure
after exactly 5 increments and exactly 5 service calls, regardless of
conversation length. -/
theorem claimC1_attempt_budget (matchDep : String → Option String) (prompt : String)
    (evs : List LoopEvent) :
    (runLoop matchDep prompt evs (initState prompt)).attempt ≤ 5 ∧
    (∀ s : LoopState, 5 ≤ s.attempt → s.successfulCode = none →
      runLoop matchDep prompt evs s = s ∧ outcome s = .failure ∧
      finalMessage s = "Failed to generate a working fix after 5 attempts.\n\n") ∧
    ((∀ ev ∈ evs, isTestFailNoDep matchDep ev = true) → evs.length = 5 →
      (runLoop matchDep prompt evs (initState prompt)).attempt = 5 ∧
      outcome (runLoop matchDep prompt evs (initState prompt)) = .failure ∧
      (runLoop matchDep prompt evs (initState prompt)).calls = 5) := by
  refine ⟨?_, ?_, ?_⟩
  · exact runLoop_attempt_le matchDep prompt evs (initState prompt) (by simp [initState])
  · intro s h5 hnone
    refine ⟨runLoop_stuck matchDep prompt evs s (fun hg => by omega), ?_, ?_⟩
    · simp [outcome, hnone]
    · simp [finalMessage, hnone]
  · intro hall hlen
    have h := runLoop_all_fail matchDep prompt evs (initState prompt) hall rfl
      (by simp [initState, hlen])
    refine ⟨?_, ?_, ?_⟩
    · rw [h.1]; simp [initState, hlen]
    · simp [outcome, h.2.1]
    · rw [h.2.2]; simp [initState, hlen]

/-- C1, witness: five consecutive unrecognized test failures. -/
theorem claimC1_witness :
    (∀ ev ∈ List.replicate 5 failEv, isTestFailNoDep mNone ev = true) ∧
    (List.replicate 5 failEv).length = 5 ∧
    ((runLoop mNone "p" (List.replicate 5 failEv) (initState "p")).attempt = 5 ∧
      outcome (runLoop mNone "p" (List.replicate 5 failEv) (initState "p")) = .failure ∧
      (runLoop mNone "p" (List.replicate 5 failEv) (initState "p")).calls = 5) :=
  ⟨by decide, rfl, (claimC1_attempt_budget mNone "p" (List.replicate 5 failEv)).2.2
    (by decide) rfl⟩

/-- C2: when a test run fails and its output matches a missing-dependency
diagnostic naming `d`, the same iteration installs `d` (no new
reasoning-service action is requested: the iteration's single service call is
the one that produced the test request) and does not terminate the loop; if
the install succeeds the attempt counter is unchanged from before the failure
and a retry-prompt turn is appended to the conversation; if the install fails
the attempt counter is incremented and the loop returns to the generate
state. -/
theorem claimC2_auto_recovery (matchDep : String → Option String) (prompt : String)
    (s : LoopState) (id : Option String) (params : RunParams) (run auto : ExecResult)
    (d : String) (hfail : run.success = false) (hdep : matchDep run.output = some d) :
    (stepLoop matchDep prompt (.runCall id (some params) run auto) s).installs
      = s.installs ++ [d] ∧
    (stepLoop matchDep prompt (.runCall id (some params) run auto) s).calls
      = s.calls + 1 ∧
    (stepLoop matchDep prompt (.runCall id (some params) run auto) s).successfulCode
      = s.successfulCode ∧
    (auto.success = true →
      (stepLoop matchDep prompt (.runCall id (some params) run auto) s).attempt
        = s.attempt ∧
      (stepLoop matchDep prompt (.runCall id (some params) run auto) s).chatMessages
        = s.chatMessages ++ toolMsgIfId id (execResultJson run)
          ++ [userMsg (retryPrompt d)]) ∧
    (auto.success = false →
      (stepLoop matchDep prompt (.runCall id (some params) run auto) s).attempt
        = s.attempt + 1 ∧
      (stepLoop matchDep prompt (.runCall id (some params) run auto) s).chatMessages
        = s.chatMessages ++ toolMsgIfId id (execResultJson run)
          ++ [userMsg (autoInstallFailPrompt d auto.output)]) := by
  refine ⟨?_, ?_, ?_, fun ha => ⟨?_, ?_⟩, fun ha => ⟨?_, ?_⟩⟩
  · by_cases ha : auto.success <;> simp [stepLoop, hfail, hdep, ha]
  · by_cases ha : auto.success <;> simp [stepLoop, hfail, hdep, ha]
  · by_cases ha : auto.success <;> simp [stepLoop, hfail, hdep, ha]
  · simp [stepLoop, hfail, hdep, ha]
  · simp [stepLoop, hfail, hdep, ha]
  · simp [stepLoop, hfail, hdep, ha]
  · simp [stepLoop, hfail, hdep, ha]

/-- C2, witness: a failing run recognized as missing `foo`, with a successful
auto-install. -/
theorem claimC2_witness :
    ((⟨false, "missing module foo"⟩ : ExecResult).success = false ∧
      mFoo "missing module foo" = some "foo") ∧
    ((stepLoop mFoo "p" (.runCall (some "call_1") (some ⟨"c", ["t"]⟩)
        ⟨false, "missing module foo"⟩ ⟨true, "ok"⟩) (initState "p")).attempt
      = (initState "p").attempt ∧
      (stepLoop mFoo "p" (.runCall (some "call_1") (some ⟨"c", ["t"]⟩)
        ⟨false, "missing module foo"⟩ ⟨true, "ok"⟩) (initState "p")).chatMessages
      = (initState "p").chatMessages
        ++ toolMsgIfId (some "call_1") (execResultJson ⟨false, "missing module foo"⟩)
        ++ [userMsg (retryPrompt "foo")]) :=
  ⟨⟨rfl, rfl⟩, (claimC2_auto_recovery mFoo "p" (initState "p") (some "call_1")
    ⟨"c", ["t"]⟩ ⟨false, "missing module foo"⟩ ⟨true, "ok"⟩ "foo" rfl rfl).2.2.2.1 rfl⟩

/-- Role counts distribute over conversation appends. -/
theorem roleCount_append (r : Role) (a b : List ChatMsg) :
    roleCount r (a ++ b) = roleCount r a + roleCount r b := by
  simp [roleCount, List.filter_append]

/-- No loop iteration ever appends an assistant-role message. -/
theorem stepLoop_assistant (m : String → Option String) (p : String)
    (ev : LoopEvent) (s : LoopState) :
    roleCount .assistant (stepLoop m p ev s).chatMessages =
      roleCount .assistant s.chatMessages := by
  cases ev with
  | apiError msg => simp [stepLoop]
  | noToolCall => simp [stepLoop]
  | otherCall name id => simp [stepLoop]
  | depCall id parsed install =>
      cases parsed with
      | none =>
          cases id <;>
            simp [stepLoop, roleCount_append, roleCount, toolMsgIfId, userMsg]
      | some dep =>
          by_cases h : install.success <;> cases id <;>
            simp [stepLoop, h, roleCount_append, roleCount, toolMsgIfId, userMsg]
  | runCall id parsed run auto =>
      cases parsed with
      | none =>
          cases id <;>
            simp [stepLoop, roleCount_append, roleCount, toolMsgIfId, userMsg]
      | some params =>
          by_cases hr : run.success
          · cases id <;>
              simp [stepLoop, hr, roleCount_append, roleCount, toolMsgIfId, userMsg]
          · cases hd : m run.output with
            | none =>
                cases id <;>
                  simp [stepLoop, hr, hd, roleCount_append, roleCount, toolMsgIfId,
                    userMsg]
            | some dep =>
                by_cases ha : auto.success <;> cases id <;>
                  simp [stepLoop, hr, hd, ha, roleCount_append, roleCount, toolMsgIfId,
                    userMsg]

/-- The loop never appends an assistant-role message. -/
theorem runLoop_assistant (m : String → Option String) (p : String) :
    ∀ (evs : List LoopEvent) (s : LoopState),
      roleCount .assistant (runLoop m p evs s).chatMessages =
        roleCount .assistant s.chatMessages := by
  intro evs
  induction evs with
  | nil => intro s; rfl
  | cons ev evs ih =>
      intro s
      rw [runLoop]
      by_cases hg : s.attempt < 5 ∧ s.successfulCode = none
      · rw [if_pos hg, ih, stepLoop_assistant]
      · rw [if_neg hg]

/-- Each loop iteration appends exactly one tool-role result turn when the
received action request has a known name and carries an id, and none
otherwise. -/
theorem stepLoop_toolCount (m : String → Option String) (p : String)
    (ev : LoopEvent) (s : LoopState) :
    roleCount .tool (stepLoop m p ev s).chatMessages =
      roleCount .tool s.chatMessages + stepToolMsgs ev := by
  cases ev with
  | apiError msg => simp [stepLoop, stepToolMsgs]
  | noToolCall => simp [stepLoop, stepToolMsgs]
  | otherCall name id => simp [stepLoop, stepToolMsgs]
  | depCall id parsed install =>
      cases parsed with
      | none =>
          cases id <;>
            simp [stepLoop, stepToolMsgs, roleCount_append, roleCount, toolMsgIfId,
              userMsg]
      | some dep =>
          by_cases h : install.success <;> cases id <;>
            simp [stepLoop, h, stepToolMsgs, roleCount_append, roleCount, toolMsgIfId,
              userMsg]
  | runCall id parsed run auto =>
      cases parsed with
      | none =>
          cases id <;>
            simp [stepLoop, stepToolMsgs, roleCount_append, roleCount, toolMsgIfId,
              userMsg]
      | some params =>
          by_cases hr : run.success
          · cases id <;>
              simp [stepLoop, hr, stepToolMsgs, roleCount_append, roleCount,
                toolMsgIfId, userMsg]
          · cases hd : m run.output with
            | none =>
                cases id <;>
                  simp [stepLoop, hr, hd, stepToolMsgs, roleCount_append, roleCount,
                    toolMsgIfId, userMsg]
            | some dep =>
                by_cases ha : auto.success <;> cases id <;>
                  simp [stepLoop, hr, hd, ha, stepToolMsgs, roleCount_append,
                    roleCount, toolMsgIfId, userMsg]

/-- Tool-result messages appended with an id, followed by a user prompt, all
reference the single issued request. -/
theorem toolUserAuxMem (id : Option String) (c u nm : String) :
    ∀ msg ∈ toolMsgIfId id c ++ [userMsg u], msg.role = .tool →
      ∃ i, msg.tool_call_id = some i ∧ ∃ name, (name, some i) ∈ [(nm, id)] := by
  intro msg hm hrole
  cases id with
  | none =>
      simp [toolMsgIfId] at hm
      rw [hm] at hrole
      simp [userMsg] at hrole
  | some i0 =>
      simp [toolMsgIfId] at hm
      rcases hm with hm | hm
      · rw [hm]
        exact ⟨i0, rfl, nm, by simp⟩
      · rw [hm] at hrole
        simp [userMsg] at hrole

/-- As `toolUserAuxMem`, without a trailing user prompt. -/
theorem toolOnlyAuxMem (id : Option String) (c nm : String) :
    ∀ msg ∈ toolMsgIfId id c, msg.role = .tool →
      ∃ i, msg.tool_call_id = some i ∧ ∃ name, (name, some i) ∈ [(nm, id)] := by
  intro msg hm _
  cases id with
  | none => simp [toolMsgIfId] at hm
  | some i0 =>
      simp [toolMsgIfId] at hm
      rw [hm]
      exact ⟨i0, rfl, nm, by simp⟩

/-- One loop iteration only appends to the conversation and to the request
log, and every appended tool-role message carries the id of the request
received in that iteration. -/
theorem stepLoop_append (m : String → Option String) (p : String)
    (ev : LoopEvent) (s : LoopState) :
    ∃ (newMsgs : List ChatMsg) (newReqs : List (String × Option String)),
      (stepLoop m p ev s).chatMessages = s.chatMessages ++ newMsgs ∧
      (stepLoop m p ev s).requests = s.requests ++ newReqs ∧
      ∀ msg ∈ newMsgs, msg.role = .tool →
        ∃ i, msg.tool_call_id = some i ∧ ∃ name, (name, some i) ∈ newReqs := by
  cases ev with
  | apiError msg => exact ⟨[], [], by simp [stepLoop], by simp [stepLoop], by simp⟩
  | noToolCall => exact ⟨[], [], by simp [stepLoop], by simp [stepLoop], by simp⟩
  | otherCall name id =>
      exact ⟨[], [(name, id)], by simp [stepLoop], by simp [stepLoop], by simp⟩
  | depCall id parsed install =>
      cases parsed with
      | none =>
          exact ⟨toolMsgIfId id (parseErrJson "download_dependency")
              ++ [userMsg (parseFailPrompt "download_dependency")],
            [("download_dependency", id)],
            by simp [stepLoop], by simp [stepLoop],
            toolUserAuxMem id _ _ _⟩
      | some dep =>
          by_cases hs : install.success
          · exact ⟨toolMsgIfId id (execResultJson install)
                ++ [userMsg (installOkPrompt dep)],
              [("download_dependency", id)],
              by simp [stepLoop, hs], by simp [stepLoop, hs],
              toolUserAuxMem id _ _ _⟩
          · exact ⟨toolMsgIfId id (execResultJson install)
                ++ [userMsg (installFailPrompt dep install.output)],
              [("download_dependency", id)],
              by simp [stepLoop, hs], by simp [stepLoop, hs],
              toolUserAuxMem id _ _ _⟩
  | runCall id parsed run auto =>
      cases parsed with
      | none =>
          exact ⟨toolMsgIfId id (parseErrJson "run_python_code")
              ++ [userMsg (parseFailPrompt "run_python_code")],
            [("run_python_code", id)],
            by simp [stepLoop], by simp [stepLoop],
            toolUserAuxMem id _ _ _⟩
      | some params =>
          by_cases hrun : run.success
          · exact ⟨toolMsgIfId id (execResultJson run), [("run_python_code", id)],
              by simp [stepLoop, hrun], by simp [stepLoop, hrun],
              toolOnlyAuxMem id _ _⟩
          · cases hd : m run.output with
            | none =>
                exact ⟨toolMsgIfId id (execResultJson run)
                    ++ [userMsg (testsFailedPrompt run.output params.code p)],
                  [("run_python_code", id)],
                  by simp [stepLoop, hrun, hd], by simp [stepLoop, hrun, hd],
                  toolUserAuxMem id _ _ _⟩
            | some dep =>
                by_cases ha : auto.success
                · exact ⟨toolMsgIfId id (execResultJson run)
                      ++ [userMsg (retryPrompt dep)],
                    [("run_python_code", id)],
                    by simp [stepLoop, hrun, hd, ha], by simp [stepLoop, hrun, hd, ha],
                    toolUserAuxMem id _ _ _⟩
                · exact ⟨toolMsgIfId id (execResultJson run)
                      ++ [userMsg (autoInstallFailPrompt dep auto.output)],
                    [("run_python_code", id)],
                    by simp [stepLoop, hrun, hd, ha], by simp [stepLoop, hrun, hd, ha],
                    toolUserAuxMem id _ _ _⟩

/-- Every tool-role message after one iteration carries the id of a request
issued so far. -/
theorem stepLoop_tool_ids (m : String → Option String) (p : String)
    (ev : LoopEvent) (s : LoopState)
    (h : ∀ msg ∈ s.chatMessages, msg.role = .tool →
      ∃ i, msg.tool_call_id = some i ∧ ∃ name, (name, some i) ∈ s.requests) :
    ∀ msg ∈ (stepLoop m p ev s).chatMessages, msg.role = .tool →
      ∃ i, msg.tool_call_id = some i ∧
        ∃ name, (name, some i) ∈ (stepLoop m p ev s).requests := by
  obtain ⟨newMsgs, newReqs, hc, hr2, hnew⟩ := stepLoop_append m p ev s
  intro msg hm hrole
  rw [hc] at hm
  rcases List.mem_append.mp hm with hm | hm
  · obtain ⟨i, hi, nm, hnm⟩ := h msg hm hrole
    exact ⟨i, hi, nm, by rw [hr2]; exact List.mem_append_left _ hnm⟩
  · obtain ⟨i, hi, nm, hnm⟩ := hnew msg hm hrole
    exact ⟨i, hi, nm, by rw [hr2]; exact List.mem_append_right _ hnm⟩

/-- The tool-id validity invariant is preserved by the whole loop. -/
theorem runLoop_tool_ids (m : String → Option String) (p : String) :
    ∀ (evs : List LoopEvent) (s : LoopState),
      (∀ msg ∈ s.chatMessages, msg.role = .tool →
        ∃ i, msg.tool_call_id = some i ∧ ∃ name, (name, some i) ∈ s.requests) →
      ∀ msg ∈ (runLoop m p evs s).chatMessages, msg.role = .tool →
        ∃ i, msg.tool_call_id = some i ∧
          ∃ name, (name, some i) ∈ (runLoop m p evs s).requests := by
  intro evs
  induction evs with
  | nil => intro s h; exact h
  | cons ev evs ih =>
      intro s h
      rw [runLoop]
      by_cases hg : s.attempt < 5 ∧ s.successfulCode = none
      · rw [if_pos hg]
        exact ih _ (stepLoop_tool_ids m p ev s h)
      · rw [if_neg hg]
        exact h

/-- C3, counterexample: after a single failing test iteration the
conversation holds a tool-role turn but no assistant turn at all (assistant
messages are never appended; they would even be filtered out before the next
service call), so a tool turn cannot reference an assistant-issued action
request that is present in the conversation. -/
theorem claimC3_counterexample :
    ¬ toolTurnsReferenced (runLoop mNone "p" [failEv] (initState "p")) := by
  intro h
  obtain ⟨j, hj, hrole⟩ := h 1 (by decide) (by decide)
  have hj0 : j = 0 := by
    have := List.mem_range.mp hj
    omega
  subst hj0
  revert hrole
  decide

/-- C3, amended: the conversation never contains an assistant turn (the
service-issued action requests are not appended), so tool-role turns
reference their request only by id: every tool turn carries the id of an
action request issued by the service during the session, and each iteration
appends exactly one tool-role result turn when its action request has a known
tool name and carries an id — an unknown-named or id-less request yields no
result turn. -/
theorem claimC3_conversation (matchDep : String → Option String) (prompt : String)
    (evs : List LoopEvent) :
    roleCount .assistant (runLoop matchDep prompt evs (initState prompt)).chatMessages
      = 0 ∧
    (∀ msg ∈ (runLoop matchDep prompt evs (initState prompt)).chatMessages,
      msg.role = .tool → ∃ i, msg.tool_call_id = some i ∧
        ∃ name, (name, some i)
          ∈ (runLoop matchDep prompt evs (initState prompt)).requests) ∧
    (∀ (ev : LoopEvent) (s : LoopState),
      roleCount .tool (stepLoop matchDep prompt ev s).chatMessages =
        roleCount .tool s.chatMessages + stepToolMsgs ev) := by
  refine ⟨?_, ?_, ?_⟩
  · rw [runLoop_assistant]
    rfl
  · exact runLoop_tool_ids matchDep prompt evs (initState prompt)
      (by
        intro msg hm hr
        simp only [initState, List.mem_singleton] at hm
        rw [hm] at hr
        simp at hr)
  · exact stepLoop_toolCount matchDep prompt

/-- C3, witness: in the one-failing-iteration session, the appended tool turn
carries the id of the issued `run_python_code` request. -/
theorem claimC3_witness :
    ((⟨.tool, execResultJson ⟨false, "AssertionError"⟩, some "call_1"⟩ : ChatMsg)
        ∈ (runLoop mNone "p" [failEv] (initState "p")).chatMessages ∧
      (⟨.tool, execResultJson ⟨false, "AssertionError"⟩, some "call_1"⟩ : ChatMsg).role
        = .tool) ∧
    ∃ i, (⟨.tool, execResultJson ⟨false, "AssertionError"⟩, some "call_1"⟩
        : ChatMsg).tool_call_id = some i ∧
      ∃ name, (name, some i) ∈ (runLoop mNone "p" [failEv] (initState "p")).requests :=
  ⟨⟨by decide, rfl⟩,
    (claimC3_conversation mNone "p" [failEv]).2.1
      ⟨.tool, execResultJson ⟨false, "AssertionError"⟩, some "call_1"⟩ (by decide) rfl⟩

end AgentFix
